import Mathlib

/-!
Verification of the span-resolution core of `syn` (src/spanned.rs).

The source is the blanket `impl<T: ToTokens> Spanned for T`, whose `span`
method has two compile-time variants:

* under `cfg(procmacro2_semver_exempt)` ("extended-span-joining on"): the
  node is tokenized, the first token's span seeds a running span, and each
  subsequent token's span is joined into it, a failed join being skipped;
* otherwise ("extended-span-joining off"): the node is tokenized and the
  first token's span is returned unchanged.

In both variants an empty token stream yields `Span::call_site()`.

The host environment (proc_macro2's `Span`, its partial `join`, and the
ambient call-site span) is opaque to this code, so it is modelled as a
context `SpanCtx` over an arbitrary location type.  Tokens matter only
through the span they carry, so a token stream is a `List S` of spans.
-/

namespace SpannedSpec

variable {S : Type} {N : Type}

/-- The host environment of the resolver: an opaque Location type `S` with
the partial `join` operation of proc_macro2's `Span::join`, and the
distinguished ambient call-site Location `Span::call_site()`. -/
structure SpanCtx (S : Type) where
  join : S → S → Option S
  callSite : S

/-- One iteration of the loop in the semver-exempt `Spanned::span`
(src/spanned.rs lines 130-134): `if let Some(joined) = span.join(tt.span)
{ span = joined; }` — replace the running span on success, keep it on
failure. -/
def spanStep (ctx : SpanCtx S) (acc t : S) : S :=
  match ctx.join acc t with
  | some j => j
  | none => acc

/-- The semver-exempt `Spanned::span` (src/spanned.rs lines 119-136),
"extended-span-joining on", as a reduction of the token-span sequence:
empty stream returns `Span::call_site()`; otherwise the first token's span
seeds the running span and the loop folds `spanStep` over the rest. -/
def spanOn (ctx : SpanCtx S) : List S → S
  | [] => ctx.callSite
  | first :: rest => rest.foldl (spanStep ctx) first

/-- The non-semver-exempt `Spanned::span` (src/spanned.rs lines 139-151),
"extended-span-joining off": empty stream returns `Span::call_site()`,
otherwise the first token's span is returned unchanged. -/
def spanOff (ctx : SpanCtx S) : List S → S
  | [] => ctx.callSite
  | _first :: _ => _first

/-- The left fold of `join` over a span sequence, failing as soon as one
join fails.  This is the spec's `join(join(...join(L1, L2)..., Ln-1), Ln)`
expression, used to state what `spanOn` returns when every join succeeds. -/
def joinFold (ctx : SpanCtx S) : S → List S → Option S
  | acc, [] => some acc
  | acc, t :: rest =>
    match ctx.join acc t with
    | some j => joinFold ctx j rest
    | none => none

/-- The full `span` call in the on-variant with its state made explicit:
`Tokens::new()` creates the empty accumulator, `self.to_tokens(&mut tokens)`
appends the node's tokens to it (the node itself is behind a shared
reference, so it is passed through unchanged), and the reduction runs on
the accumulated stream.  Returns the node as observed after the call
together with the resulting span; the accumulator is local and dropped. -/
def resolveWithState (ctx : SpanCtx S) (toTokens : N → List S → List S)
    (node : N) : N × S :=
  let tokens : List S := []
  let tokens2 := toTokens node tokens
  (node, spanOn ctx tokens2)

/-- The full `span` call in the off-variant with its state made explicit,
analogous to `resolveWithState`. -/
def resolveOffWithState (ctx : SpanCtx S) (toTokens : N → List S → List S)
    (node : N) : N × S :=
  let tokens : List S := []
  let tokens2 := toTokens node tokens
  (node, spanOff ctx tokens2)

/-- `spanStep` instrumented to record, in order, the operand pair of every
join the loop attempts. -/
def spanStepT (ctx : SpanCtx S) (p : S × List (S × S)) (t : S) :
    S × List (S × S) :=
  (spanStep ctx p.1 t, p.2 ++ [(p.1, t)])

/-- `spanOn` instrumented with the list of join-operand pairs attempted
during the run: the empty stream attempts none and returns the call site
directly, a nonempty stream folds the instrumented step. -/
def spanOnTrace (ctx : SpanCtx S) : List S → S × List (S × S)
  | [] => (ctx.callSite, [])
  | first :: rest => rest.foldl (spanStepT ctx) (first, [])

/-- A concrete Location instance for evaluating the model: a source-file
identifier and a byte range.  Two spans join exactly when they come from
the same source, the join covering both ranges. -/
structure SrcSpan where
  src : Nat
  lo : Nat
  hi : Nat
deriving DecidableEq

/-- Concrete join on `SrcSpan`: defined iff the two spans share a source. -/
def joinSrc (a b : SrcSpan) : Option SrcSpan :=
  if a.src = b.src then some ⟨a.src, Nat.min a.lo b.lo, Nat.max a.hi b.hi⟩
  else none

/-- A concrete host context over `SrcSpan`; source 0 plays the call site. -/
def testCtx : SpanCtx SrcSpan :=
  ⟨joinSrc, ⟨0, 0, 0⟩⟩

theorem foldl_spanStepT_fst (ctx : SpanCtx S) (ts : List S) :
    ∀ acc tr, (ts.foldl (spanStepT ctx) (acc, tr)).1 = ts.foldl (spanStep ctx) acc := by
  induction ts with
  | nil => intro acc tr; rfl
  | cons t ts ih => intro acc tr; exact ih (spanStep ctx acc t) (tr ++ [(acc, t)])

/-- Claim C1: in extended-span-joining on mode, when the left fold of join
over the token Locations succeeds at every step, `spanOn` returns exactly
that left fold, i.e. join(join(...join(L1, L2)..., Ln-1), Ln). -/
theorem spanOn_eq_joinFold (ctx : SpanCtx S) (first : S) (rest : List S) (r : S)
    (h : joinFold ctx first rest = some r) :
    spanOn ctx (first :: rest) = r := by
  induction rest generalizing first with
  | nil =>
    simp only [joinFold, Option.some.injEq] at h
    simpa [spanOn] using h
  | cons t ts ih =>
    simp only [joinFold] at h
    cases hj : ctx.join first t with
    | none => rw [hj] at h; exact absurd h (by simp)
    | some j =>
      rw [hj] at h
      have hrec := ih j h
      simpa [spanOn, List.foldl_cons, spanStep, hj] using hrec

/-- Witness for C1: three mutually joinable spans from source 1; the
resolver returns the left fold join(join(L1, L2), L3). -/
theorem spanOn_eq_joinFold_witness :
    joinFold testCtx ⟨1, 0, 2⟩ [⟨1, 2, 4⟩, ⟨1, 5, 9⟩] = some ⟨1, 0, 9⟩ ∧
    spanOn testCtx (⟨1, 0, 2⟩ :: [⟨1, 2, 4⟩, ⟨1, 5, 9⟩]) = ⟨1, 0, 9⟩ :=
  ⟨by decide, spanOn_eq_joinFold testCtx ⟨1, 0, 2⟩ [⟨1, 2, 4⟩, ⟨1, 5, 9⟩]
    ⟨1, 0, 9⟩ (by decide)⟩

/-- Claim C2: in on mode, if the join of the running result with some
non-first token fails, the result is exactly the result on the sequence
with that token removed: accumulation before it is preserved and the
tokens after it are still processed. -/
theorem spanOn_skip_failed (ctx : SpanCtx S) (first t : S) (l1 l2 : List S)
    (h : ctx.join (l1.foldl (spanStep ctx) first) t = none) :
    spanOn ctx (first :: (l1 ++ t :: l2)) = spanOn ctx (first :: (l1 ++ l2)) := by
  simp [spanOn, List.foldl_append, List.foldl_cons, spanStep, h]

/-- Witness for C2: the middle token comes from source 2 and cannot join
the running source-1 result; the outcome equals that of the sequence with
the incompatible token removed. -/
theorem spanOn_skip_failed_witness :
    testCtx.join (List.foldl (spanStep testCtx) ⟨1, 0, 2⟩ []) ⟨2, 7, 8⟩ = none ∧
    spanOn testCtx (⟨1, 0, 2⟩ :: ([] ++ ⟨2, 7, 8⟩ :: [⟨1, 5, 9⟩])) =
      spanOn testCtx (⟨1, 0, 2⟩ :: ([] ++ [⟨1, 5, 9⟩])) :=
  ⟨by decide, spanOn_skip_failed testCtx ⟨1, 0, 2⟩ ⟨2, 7, 8⟩ [] [⟨1, 5, 9⟩]
    (by decide)⟩

/-- Claim C3: in extended-span-joining off mode, a sequence of two or more
tokens resolves to exactly the first token's Location, whatever the later
Locations are. -/
theorem spanOff_first_of_two (ctx : SpanCtx S) (l1 l2 : S) (rest : List S) :
    spanOff ctx (l1 :: l2 :: rest) = l1 := rfl

/-- Claim C4: an empty token sequence resolves to the ambient call-site
Location in both modes. -/
theorem span_empty_callSite (ctx : SpanCtx S) :
    spanOn ctx ([] : List S) = ctx.callSite ∧
    spanOff ctx ([] : List S) = ctx.callSite := ⟨rfl, rfl⟩

/-- Claim C5: a one-token sequence with Location L resolves to L in both
modes. -/
theorem span_singleton (ctx : SpanCtx S) (l : S) :
    spanOn ctx [l] = l ∧ spanOff ctx [l] = l := ⟨rfl, rfl⟩

/-- Claim C6: resolution is total in both modes — on every token sequence,
including the empty one, each variant returns a Location (the return type
is `S`, not an error-carrying type, so a failed internal join can never
surface to the caller). -/
theorem span_total (ctx : SpanCtx S) (ts : List S) :
    (∃ s, spanOn ctx ts = s) ∧ (∃ s, spanOff ctx ts = s) :=
  ⟨⟨_, rfl⟩, ⟨_, rfl⟩⟩

/-- Claim C7: resolution is deterministic in the token sequence — two runs
whose tokenizations yield identical sequences yield identical Locations,
in both modes. -/
theorem span_deterministic (ctx : SpanCtx S) (ts1 ts2 : List S)
    (h : ts1 = ts2) :
    spanOn ctx ts1 = spanOn ctx ts2 ∧ spanOff ctx ts1 = spanOff ctx ts2 := by
  subst h; exact ⟨rfl, rfl⟩

/-- Witness for C7: two identical concrete tokenizations give the same
result in both modes. -/
theorem span_deterministic_witness :
    ([⟨1, 0, 2⟩, ⟨1, 2, 4⟩] : List SrcSpan) = [⟨1, 0, 2⟩, ⟨1, 2, 4⟩] ∧
    (spanOn testCtx [⟨1, 0, 2⟩, ⟨1, 2, 4⟩] = spanOn testCtx [⟨1, 0, 2⟩, ⟨1, 2, 4⟩] ∧
      spanOff testCtx [⟨1, 0, 2⟩, ⟨1, 2, 4⟩] = spanOff testCtx [⟨1, 0, 2⟩, ⟨1, 2, 4⟩]) :=
  ⟨rfl, span_deterministic testCtx [⟨1, 0, 2⟩, ⟨1, 2, 4⟩] [⟨1, 0, 2⟩, ⟨1, 2, 4⟩] rfl⟩

/-- Claim C8: the ambient call-site Location is never an operand of a join
initiated by the resolver: the empty-sequence run attempts no join and
returns the call site directly; on a nonempty sequence the attempted joins
are identical whatever the call-site value is (so the distinguished
call-site value never flows into a join); the instrumented run computes
the same result as `spanOn`; and the off-variant never consults the join
operation at all. -/
theorem callSite_never_joined (j j2 : S → S → Option S) (cs cs1 cs2 : S)
    (first : S) (rest ts us : List S) :
    (spanOnTrace ⟨j, cs⟩ ([] : List S)).2 = [] ∧
    (spanOnTrace ⟨j, cs1⟩ (first :: rest)).2 =
      (spanOnTrace ⟨j, cs2⟩ (first :: rest)).2 ∧
    (spanOnTrace ⟨j, cs⟩ ts).1 = spanOn ⟨j, cs⟩ ts ∧
    spanOff ⟨j, cs⟩ us = spanOff ⟨j2, cs⟩ us := by
  refine ⟨rfl, ?_, ?_, ?_⟩
  · have hfun : spanStepT (⟨j, cs1⟩ : SpanCtx S) = spanStepT ⟨j, cs2⟩ := rfl
    simp [spanOnTrace, hfun]
  · cases ts with
    | nil => rfl
    | cons t ts => exact foldl_spanStepT_fst ⟨j, cs⟩ ts t []
  · cases us with
    | nil => rfl
    | cons u us => rfl

/-- Claim C9: the resolver does not mutate its input node and retains no
state across calls: with the call's state made explicit, the node observed
after the call is the node observed before (in both variants), and a
second call on that node returns the same Location — the only written
state is the fresh local token accumulator, which does not escape. -/
theorem resolve_frame (ctx : SpanCtx S) (toTokens : N → List S → List S)
    (node : N) :
    (resolveWithState ctx toTokens node).1 = node ∧
    (resolveOffWithState ctx toTokens node).1 = node ∧
    (resolveWithState ctx toTokens ((resolveWithState ctx toTokens node).1)).2 =
      (resolveWithState ctx toTokens node).2 ∧
    (resolveOffWithState ctx toTokens ((resolveOffWithState ctx toTokens node).1)).2 =
      (resolveOffWithState ctx toTokens node).2 :=
  ⟨rfl, rfl, rfl, rfl⟩

/-- Claim C10: the on-variant degrades exactly to the off-variant when no
join ever succeeds — on a sequence in which every attempted join fails the
two variants agree (the running result stays the first token's Location),
and they agree on every sequence of length zero or one. -/
theorem spanOn_degrades_to_spanOff (ctx : SpanCtx S) (first : S)
    (rest : List S) (h : ∀ t ∈ rest, ctx.join first t = none) :
    spanOn ctx (first :: rest) = spanOff ctx (first :: rest) ∧
    spanOn ctx ([] : List S) = spanOff ctx ([] : List S) ∧
    spanOn ctx [first] = spanOff ctx [first] := by
  refine ⟨?_, rfl, rfl⟩
  induction rest with
  | nil => rfl
  | cons t ts ih =>
    have h1 : ctx.join first t = none := h t (by simp)
    have hrec : spanOn ctx (first :: ts) = spanOff ctx (first :: ts) :=
      ih (fun u hu => h u (by simp [hu]))
    simpa [spanOn, spanOff, List.foldl_cons, spanStep, h1] using hrec

/-- Witness for C10: every token after the first comes from a different
source, so every join fails and the on-variant returns the first token's
Location, as the off-variant does. -/
theorem spanOn_degrades_to_spanOff_witness :
    (∀ t ∈ ([⟨2, 7, 8⟩, ⟨3, 1, 4⟩] : List SrcSpan), testCtx.join ⟨1, 0, 2⟩ t = none) ∧
    (spanOn testCtx (⟨1, 0, 2⟩ :: [⟨2, 7, 8⟩, ⟨3, 1, 4⟩]) =
        spanOff testCtx (⟨1, 0, 2⟩ :: [⟨2, 7, 8⟩, ⟨3, 1, 4⟩]) ∧
      spanOn testCtx ([] : List SrcSpan) = spanOff testCtx ([] : List SrcSpan) ∧
      spanOn testCtx [⟨1, 0, 2⟩] = spanOff testCtx [⟨1, 0, 2⟩]) :=
  ⟨by decide, spanOn_degrades_to_spanOff testCtx ⟨1, 0, 2⟩ [⟨2, 7, 8⟩, ⟨3, 1, 4⟩]
    (by decide)⟩

end SpannedSpec
